import Mathlib

set_option maxRecDepth 4000

/-!
Shallow embedding of the resumable batch-embedding engine of
`src/02_vectorize/main.py` (repository `kihon_similar_question_finder`).

The embedding models, per provider:
  * the on-disk state (`FS`): the partial checkpoint file `vectors_<name>.npy.tmp`
    and the final artifact `vectors_<name>.npy`;
  * the remote (ollama) backend as a function from the text sent to the result of
    `client.embed(...)` (either the call raises, or it returns a response whose
    `embedding` field may be present or absent);
  * `process_in_batches` (lines 54-168) as `processInBatches`, including the
    resume-from-tmp logic, the warm-up call, the batch loop with per-batch
    checkpoint saves, and the rename-based finalization;
  * the per-model body of `main`'s coordinator loop (lines 222-252) as
    `coordinatorStep`, and `main` itself (lines 185-265), whose first statement
    unconditionally raises, together with the `__main__` guard (lines 267-289).

Vector entries are modelled as integers (`Vec := List Int`): no claim depends on
arithmetic over the entries, only on which vectors flow where.  Outcomes of the
`np.save` calls (which the source catches and merely logs on failure, lines
141-144) are supplied by an oracle `saveOk : Nat → Bool`, indexed by the batch
counter.  `os.rename` is modelled with POSIX semantics (renaming onto an
existing path replaces it); a missing source raises `FileNotFoundError`, which
is the branch the source handles explicitly (lines 155-165).
-/

namespace Vectorize

/-- An embedding vector, as stored in the checkpoint. -/
abbrev Vec := List Int

/-- Contents of an `.npy` file on disk: either a loadable array of vectors, or
bytes that `np.load` fails on (the corrupt-checkpoint case of lines 81-84). -/
inductive NpyFile
  | valid (vs : List Vec)
  | corrupt
deriving DecidableEq

/-- The on-disk state for one provider: the partial checkpoint (`tmp_path`) and
the final artifact (`final_path`), each possibly absent. -/
structure FS where
  tmp : Option NpyFile
  final : Option NpyFile
deriving DecidableEq

/-- Result of one `client.embed(model=..., input=text)` call: the `embedding`
field of the response, when the response carries one. -/
structure OllamaResponse where
  embedding : Option Vec
deriving DecidableEq

/-- Outcome of one remote embed call: the call returns a response, or raises
(timeout, transport failure, ...). -/
inductive EmbedResult
  | ok (response : OllamaResponse)
  | err
deriving DecidableEq

/-- Observable events of a run: the corrupt-checkpoint warning (line 82), the
sentence-transformers model load (line 96), the ollama warm-up call (line 105)
and each dispatched embed batch (lines 118-131). -/
inductive Event
  | corruptWarning
  | modelLoad
  | warmup
  | embedCall (batch : List String)
deriving DecidableEq

/-- The two provider variants of lines 93-109: a sentence-transformers model
(whose `encode` is called once per batch) and an ollama client (called once per
text of the batch).  Each carries its backend as an oracle. -/
inductive ModelType
  | ollama (backend : String → EmbedResult)
  | st (encode : List String → Except Unit (List Vec))

/-- Lines 74-84: load the partial checkpoint.  Returns the recovered vector
prefix together with a flag recording whether the corrupt-file warning was
logged (in which case processing restarts from index 0). -/
def loadTmp : Option NpyFile → List Vec × Bool
  | none => ([], false)
  | some (NpyFile.valid vs) => (vs, false)
  | some NpyFile.corrupt => ([], true)

/-- Lines 121-128: the per-text ollama loop over one batch.
`response = client.embed(...)` may raise, and `response['embedding']` raises a
`KeyError` when the field is absent; either exception aborts the whole batch
(the vectors already collected for this batch are discarded by the handler at
lines 132-136).  A present-but-empty `embedding` value is appended as-is. -/
def ollamaEmbedBatch (backend : String → EmbedResult) : List String → Except Unit (List Vec)
  | [] => Except.ok []
  | t :: ts =>
      match backend t with
      | EmbedResult.err => Except.error ()
      | EmbedResult.ok r =>
          match r.embedding with
          | none => Except.error ()
          | some v =>
              match ollamaEmbedBatch backend ts with
              | Except.error e => Except.error e
              | Except.ok rest => Except.ok (v :: rest)

/-- Whether processing text `t` through the ollama backend succeeds: the call
returns and the response carries the `embedding` field. -/
def textOk (backend : String → EmbedResult) (t : String) : Bool :=
  match backend t with
  | EmbedResult.err => false
  | EmbedResult.ok r => r.embedding.isSome

/-- The vector the ollama backend yields for text `t` (junk when `textOk` is
false; never consulted there). -/
def embedOf (backend : String → EmbedResult) (t : String) : Vec :=
  match backend t with
  | EmbedResult.err => []
  | EmbedResult.ok r => r.embedding.getD []

/-- Whether the warm-up call `client.embed(model, input="warm-up")` of line 105
returns without raising (its response is not inspected further). -/
def warmupOk (backend : String → EmbedResult) : Bool :=
  match backend "warm-up" with
  | EmbedResult.err => false
  | EmbedResult.ok _ => true

/-- Lines 138-144: `processed_vectors.extend(batch_vectors)` followed by
`np.save(tmp_path, ...)` under a `try/except` that only logs on failure.  The
in-memory list always grows; the persisted checkpoint is replaced by the full
in-memory list only when the save succeeds. -/
def checkpointAppend (saveOk : Bool) (mem batchVectors : List Vec)
    (tmp : Option NpyFile) : List Vec × Option NpyFile :=
  let mem' := mem ++ batchVectors
  (mem', if saveOk then some (NpyFile.valid mem') else tmp)

/-- Line 112: `num_batches = math.ceil(len(texts_to_process) / batch_size)`.
(For `bs = 0` the Python raises `ZeroDivisionError`; every theorem below
assumes `1 ≤ bs`, matching the spec's "positive integer" requirement.) -/
def numBatches (len bs : Nat) : Nat := (len + bs - 1) / bs

/-- The first `n` batches of the loop of lines 117-118: at iteration `i` the
slice `texts_to_process[i*bs:(i+1)*bs]` is the first `bs` elements of the
still-unprocessed suffix. -/
def chunkList (bs : Nat) : Nat → List String → List (List String)
  | 0, _ => []
  | n + 1, l => l.take bs :: chunkList bs n (l.drop bs)

/-- Lines 116-148: the batch loop.  `fuel` counts the remaining iterations of
`for i in range(num_batches)` and `i` is the loop counter; `rem` is the
unprocessed suffix of `texts_to_process`, so the batch of iteration `i`,
`texts_to_process[i*bs:(i+1)*bs]`, is `rem.take bs`.  A failed embed call
returns `False` immediately (lines 132-136); a completed batch is appended via
`checkpointAppend` and the loop continues. -/
def batchLoop (embedB : List String → Except Unit (List Vec)) (saveOk : Nat → Bool)
    (bs : Nat) :
    Nat → Nat → List String → List Vec → Option NpyFile → List Event →
      Bool × List Vec × Option NpyFile × List Event
  | 0, _, _, mem, tmp, evs => (true, mem, tmp, evs)
  | fuel + 1, i, rem, mem, tmp, evs =>
      let batch := rem.take bs
      match embedB batch with
      | Except.error _ => (false, mem, tmp, evs ++ [Event.embedCall batch])
      | Except.ok vs =>
          let app := checkpointAppend (saveOk i) mem vs tmp
          batchLoop embedB saveOk bs fuel (i + 1) (rem.drop bs) app.1 app.2
            (evs ++ [Event.embedCall batch])

/-- Lines 150-168: `os.rename(tmp_path, final_path)` under the two handlers.
When the tmp file exists the rename succeeds and moves its bytes to the final
path.  When it does not, `FileNotFoundError` is caught: success if the final
artifact already exists, success if the corpus was empty (no file is created),
failure otherwise. -/
def finalizeStep (texts : List String) (fs : FS) : Bool × FS :=
  match fs.tmp with
  | some content => (true, { tmp := none, final := some content })
  | none =>
      if fs.final.isSome then (true, fs)
      else if texts.isEmpty then (true, fs)
      else (false, fs)

/-- Shared tail of `process_in_batches` after the batch loop: on loop failure
return `False` with the checkpoint as the loop left it (lines 132-136); on
success fall through to finalization (lines 150-168). -/
def finishRun (texts : List String) (fs : FS) :
    Bool × List Vec × Option NpyFile × List Event → Bool × FS × List Event
  | (ok, _mem, tmp, evs) =>
      let fs' : FS := { tmp := tmp, final := fs.final }
      if ok then
        let fin := finalizeStep texts fs'
        (fin.1, fin.2, evs)
      else (false, fs', evs)

/-- Lines 54-168: `process_in_batches(texts, model_config, batch_size, ...)`.
Resume from the tmp checkpoint (or restart at 0 when it is unreadable); when
nothing remains, go straight to finalization; otherwise load/warm up the
backend (a warm-up failure returns `False`, line 109), run the batch loop and
finalize.  (A `SentenceTransformer(...)` constructor failure is raised, not
caught, and is outside this model; no claim concerns it.) -/
def processInBatches (mt : ModelType) (saveOk : Nat → Bool) (batchSize : Nat)
    (texts : List String) (fs : FS) : Bool × FS × List Event :=
  let loaded := loadTmp fs.tmp
  let processedVectors := loaded.1
  let startIndex := processedVectors.length
  let evs0 : List Event := if loaded.2 then [Event.corruptWarning] else []
  let textsToProcess := texts.drop startIndex
  if textsToProcess.isEmpty then
    let fin := finalizeStep texts fs
    (fin.1, fin.2, evs0)
  else
    match mt with
    | ModelType.st encode =>
        let evs1 := evs0 ++ [Event.modelLoad]
        let nb := numBatches textsToProcess.length batchSize
        finishRun texts fs
          (batchLoop encode saveOk batchSize nb 0 textsToProcess processedVectors fs.tmp evs1)
    | ModelType.ollama backend =>
        match backend "warm-up" with
        | EmbedResult.err => (false, fs, evs0 ++ [Event.warmup])
        | EmbedResult.ok _ =>
            let evs1 := evs0 ++ [Event.warmup]
            let nb := numBatches textsToProcess.length batchSize
            finishRun texts fs
              (batchLoop (ollamaEmbedBatch backend) saveOk batchSize nb 0
                textsToProcess processedVectors fs.tmp evs1)

/-- Lines 229-252: the per-model body of `main`'s coordinator loop.  Skip the
provider when the final artifact exists and `--force` is not set; with
`--force`, delete both the final artifact and the tmp checkpoint (if present)
before running `process_in_batches`.  Result: `none` when skipped, otherwise
the runner's success flag. -/
def coordinatorStep (force : Bool) (mt : ModelType) (saveOk : Nat → Bool)
    (bs : Nat) (texts : List String) (fs : FS) : Option Bool × FS × List Event :=
  if fs.final.isSome && !force then (none, fs, [])
  else
    let fs1 : FS := if force then { tmp := none, final := none } else fs
    let r := processInBatches mt saveOk bs texts fs1
    (some r.1, r.2.1, r.2.2)

/-- One provider of the coordinator loop: its backend variant and its on-disk
state. -/
structure Provider where
  mt : ModelType
  fs : FS

/-- Lines 222-260: the coordinator loop over `models_to_run` (each provider's
output paths are distinct, so their file states are independent). -/
def coordinator (force : Bool) (saveOk : Nat → Bool) (bs : Nat)
    (texts : List String) (providers : List Provider) :
    List (Option Bool × FS × List Event) :=
  providers.map fun p => coordinatorStep force p.mt saveOk bs texts p.fs

/-- The message of the exception raised by `main`'s first statement (line 187). -/
def forcedTestError : String := "Forced test error for clipboard functionality"

/-- Lines 185-265: `main()`.  Its first statement is
`raise Exception("Forced test error for clipboard functionality")`, so the
whole remainder (argument parsing, config load, data load, metadata save and
the coordinator loop, modelled by `coordinator`) is unreachable dead code. -/
def main (force : Bool) (saveOk : Nat → Bool) (bs : Nat) (texts : List String)
    (providers : List Provider) : Except String (List (Option Bool × FS × List Event)) :=
  (Except.error forcedTestError : Except String Unit) >>= fun _ =>
    Except.ok (coordinator force saveOk bs texts providers)

/-- Lines 267-289: the `__main__` guard.  It runs `main()`; on an exception it
restores stdout/stderr, attempts to copy the captured console output to the
clipboard (the Boolean records that this attempt was made) and re-raises the
same exception. -/
def topLevelGuard (force : Bool) (saveOk : Nat → Bool) (bs : Nat)
    (texts : List String) (providers : List Provider) :
    Except String (List (Option Bool × FS × List Event)) × Bool :=
  match main force saveOk bs texts providers with
  | Except.ok r => (Except.ok r, false)
  | Except.error e => (Except.error e, true)


/-- A concrete backend used to instantiate witnesses: the call fails on the
text "b" and otherwise returns a response holding the vector `[1]`. -/
def sampleBackend : String → EmbedResult := fun t =>
  if t = "b" then EmbedResult.err else EmbedResult.ok ⟨some [1]⟩

/-- A concrete backend used to instantiate witnesses: every call succeeds and
embeds a text as the one-element vector holding its length. -/
def sampleEmbed : String → EmbedResult := fun t =>
  EmbedResult.ok ⟨some [(t.length : Int)]⟩

/-- A concrete backend used to instantiate witnesses: the warm-up call
succeeds, and every other response lacks the `embedding` field. -/
def sampleNoField : String → EmbedResult := fun t =>
  if t = "warm-up" then EmbedResult.ok ⟨some [0]⟩ else EmbedResult.ok ⟨none⟩

/-! ### Helper lemmas about the batch-level embed call -/

theorem ollamaEmbedBatch_ok (backend : String → EmbedResult) :
    ∀ batch : List String, (∀ t ∈ batch, textOk backend t = true) →
      ollamaEmbedBatch backend batch = Except.ok (batch.map (embedOf backend)) := by
  intro batch
  induction batch with
  | nil => intro _; rfl
  | cons t ts ih =>
    intro h
    have ht : textOk backend t = true := h t (List.mem_cons_self t ts)
    have hts := ih fun x hx => h x (List.mem_cons_of_mem t hx)
    simp only [ollamaEmbedBatch, List.map_cons]
    cases hb : backend t with
    | err => simp [textOk, hb] at ht
    | ok r =>
      cases hr : r.embedding with
      | none => simp [textOk, hb, hr] at ht
      | some v => simp [hts, embedOf, hb, hr]

theorem ollamaEmbedBatch_err (backend : String → EmbedResult) :
    ∀ batch : List String, (∃ t ∈ batch, textOk backend t = false) →
      ollamaEmbedBatch backend batch = Except.error () := by
  intro batch
  induction batch with
  | nil => rintro ⟨t, ht, -⟩; cases ht
  | cons a ts ih =>
    rintro ⟨t, ht, hbad⟩
    simp only [ollamaEmbedBatch]
    cases hb : backend a with
    | err => rfl
    | ok r =>
      cases hr : r.embedding with
      | none => simp [hr]
      | some v =>
        rcases List.mem_cons.mp ht with rfl | hmem
        · simp [textOk, hb, hr] at hbad
        · simp [hr, ih ⟨t, hmem, hbad⟩]

/-- When every remaining text embeds successfully and every checkpoint save
succeeds, the loop completes all `fuel` iterations, appending the vectors of
the remaining texts in corpus order, and (when at least one iteration ran)
leaves the checkpoint holding the full processed prefix. -/
theorem batchLoop_ok (backend : String → EmbedResult) (saveOk : Nat → Bool) (bs : Nat)
    (hsave : ∀ i, saveOk i = true) :
    ∀ fuel i rem mem tmp evs,
      (∀ t ∈ rem, textOk backend t = true) →
      rem.length ≤ fuel * bs → fuel * bs < rem.length + bs →
      batchLoop (ollamaEmbedBatch backend) saveOk bs fuel i rem mem tmp evs =
        (true, mem ++ rem.map (embedOf backend),
         if fuel = 0 then tmp else some (NpyFile.valid (mem ++ rem.map (embedOf backend))),
         evs ++ (chunkList bs fuel rem).map Event.embedCall) := by
  intro fuel
  induction fuel with
  | zero =>
    intro i rem mem tmp evs _ hle _
    have hrem : rem = [] := List.eq_nil_of_length_eq_zero (by omega)
    subst hrem
    simp [batchLoop, chunkList]
  | succ fuel ih =>
    intro i rem mem tmp evs hok hle hlt
    have hmul : (fuel + 1) * bs = fuel * bs + bs := Nat.succ_mul fuel bs
    rw [hmul] at hle hlt
    have hsplit : rem.map (embedOf backend)
        = (rem.take bs).map (embedOf backend) ++ (rem.drop bs).map (embedOf backend) := by
      rw [← List.map_append, List.take_append_drop]
    simp only [batchLoop]
    rw [ollamaEmbedBatch_ok backend _ fun t ht => hok t (List.take_subset bs rem ht)]
    simp only [checkpointAppend, hsave i, if_true]
    rw [ih (i + 1) (rem.drop bs) (mem ++ (rem.take bs).map (embedOf backend))
        (some (NpyFile.valid (mem ++ (rem.take bs).map (embedOf backend))))
        (evs ++ [Event.embedCall (rem.take bs)])
        (fun t ht => hok t (List.drop_subset bs rem ht))
        (by rw [List.length_drop]; omega)
        (by rw [List.length_drop]; omega)]
    by_cases h0 : fuel = 0
    · subst h0
      have hdrop : rem.drop bs = [] :=
        List.eq_nil_of_length_eq_zero (by rw [List.length_drop]; omega)
      have htake : rem.take bs = rem := List.take_of_length_le (by omega)
      simp [htake, hdrop, chunkList]
    · simp only [if_neg h0, if_neg (Nat.succ_ne_zero fuel)]
      rw [hsplit]
      simp [chunkList, List.append_assoc]

/-- When the first `j` batches embed successfully, every save succeeds, and
batch `j` (which exists) contains a text whose embed call fails, the loop stops
at batch `j`: it returns `False`, the in-memory prefix holds exactly the
vectors of the first `j` completed batches, the persisted checkpoint was last
written after batch `j - 1` (it is untouched when `j = 0`), and the attempted
batches are exactly batches `0..j`. -/
theorem batchLoop_err (backend : String → EmbedResult) (saveOk : Nat → Bool) (bs : Nat)
    (hsave : ∀ i, saveOk i = true) :
    ∀ j fuel i rem mem tmp evs,
      (∀ t ∈ rem.take (j * bs), textOk backend t = true) →
      (∃ t ∈ (rem.drop (j * bs)).take bs, textOk backend t = false) →
      rem.length ≤ fuel * bs →
      j * bs < rem.length →
      batchLoop (ollamaEmbedBatch backend) saveOk bs fuel i rem mem tmp evs =
        (false, mem ++ ((rem.take (j * bs)).map (embedOf backend)),
         if j = 0 then tmp
           else some (NpyFile.valid (mem ++ ((rem.take (j * bs)).map (embedOf backend)))),
         evs ++ (chunkList bs (j + 1) rem).map Event.embedCall) := by
  intro j
  induction j with
  | zero =>
    intro fuel i rem mem tmp evs _ hbad hle hj
    simp only [Nat.zero_mul, List.drop_zero] at hbad hj ⊢
    have hf : fuel ≠ 0 := by
      rintro rfl
      simp only [Nat.zero_mul] at hle
      omega
    obtain ⟨fuel, rfl⟩ := Nat.exists_eq_succ_of_ne_zero hf
    simp only [batchLoop]
    rw [ollamaEmbedBatch_err backend _ hbad]
    simp [chunkList]
  | succ j ih =>
    intro fuel i rem mem tmp evs hok hbad hle hj
    have hmul : (j + 1) * bs = bs + j * bs := by ring
    have hf : fuel ≠ 0 := by
      rintro rfl
      simp only [Nat.zero_mul] at hle
      omega
    obtain ⟨fuel, rfl⟩ := Nat.exists_eq_succ_of_ne_zero hf
    have hmulf : (fuel + 1) * bs = fuel * bs + bs := Nat.succ_mul fuel bs
    rw [hmulf] at hle
    have htakesplit : rem.take ((j + 1) * bs)
        = rem.take bs ++ (rem.drop bs).take (j * bs) := by
      rw [hmul, List.take_add]
    have hdropsplit : (rem.drop bs).drop (j * bs) = rem.drop ((j + 1) * bs) := by
      rw [List.drop_drop, ← hmul]
    have hok1 : ∀ t ∈ rem.take bs, textOk backend t = true := by
      intro t ht
      apply hok
      rw [htakesplit]
      exact List.mem_append_left _ ht
    simp only [batchLoop]
    rw [ollamaEmbedBatch_ok backend _ hok1]
    simp only [checkpointAppend, hsave i, if_true]
    rw [ih fuel (i + 1) (rem.drop bs) (mem ++ (rem.take bs).map (embedOf backend))
        (some (NpyFile.valid (mem ++ (rem.take bs).map (embedOf backend))))
        (evs ++ [Event.embedCall (rem.take bs)])
        (by intro t ht
            apply hok
            rw [htakesplit]
            exact List.mem_append_right _ ht)
        (by rw [hdropsplit]; exact hbad)
        (by rw [List.length_drop]; omega)
        (by rw [List.length_drop]; rw [hmul] at hj; omega)]
    rw [htakesplit]
    by_cases h0 : j = 0
    · subst h0
      simp [chunkList, List.append_assoc]
    · simp only [if_neg h0, if_neg (Nat.succ_ne_zero j)]
      simp [chunkList, List.append_assoc]

/-- `math.ceil(len / bs)` iterations cover all `len` texts and overshoot by
less than one batch. -/
theorem numBatches_spec (len bs : Nat) (hbs : 1 ≤ bs) :
    len ≤ numBatches len bs * bs ∧ numBatches len bs * bs < len + bs := by
  constructor
  · have hdm := Nat.div_add_mod (len + bs - 1) bs
    have hmod : (len + bs - 1) % bs < bs := Nat.mod_lt _ (by omega)
    unfold numBatches
    rw [Nat.mul_comm]
    omega
  · have := Nat.div_mul_le_self (len + bs - 1) bs
    unfold numBatches
    omega

/-- For a nonempty remainder at least one batch runs. -/
theorem numBatches_pos (len bs : Nat) (hbs : 1 ≤ bs) (hlen : 0 < len) :
    numBatches len bs ≠ 0 := by
  intro h
  have := (numBatches_spec len bs hbs).1
  rw [h] at this
  omega

/-- Successful run of `process_in_batches` for an ollama provider: resuming
from a checkpoint that loads as `(vs, w)`, with remaining work, a warm-up call
that returns, every remaining text embedding successfully and every save
succeeding, the run returns `True`, the tmp file is renamed away, and the final
artifact holds the checkpoint prefix followed by the embeddings of the
remaining texts in corpus order. -/
theorem processInBatches_ok (backend : String → EmbedResult) (saveOk : Nat → Bool)
    (bs : Nat) (texts : List String) (tmp0 final0 : Option NpyFile)
    (vs : List Vec) (w : Bool)
    (hload : loadTmp tmp0 = (vs, w))
    (hbs : 1 ≤ bs) (hsave : ∀ i, saveOk i = true)
    (hwarm : warmupOk backend = true)
    (hok : ∀ t ∈ texts.drop vs.length, textOk backend t = true)
    (hne : texts.drop vs.length ≠ []) :
    processInBatches (ModelType.ollama backend) saveOk bs texts ⟨tmp0, final0⟩ =
      (true,
       ⟨none, some (NpyFile.valid (vs ++ (texts.drop vs.length).map (embedOf backend)))⟩,
       (if w then [Event.corruptWarning] else []) ++
         Event.warmup ::
           (chunkList bs (numBatches (texts.drop vs.length).length bs)
             (texts.drop vs.length)).map Event.embedCall) := by
  have hlen : 0 < (texts.drop vs.length).length := List.length_pos.mpr hne
  have hE : (texts.drop vs.length).isEmpty = false := by
    simpa [List.isEmpty_iff] using hne
  have hnb := numBatches_spec (texts.drop vs.length).length bs hbs
  have hnb0 := numBatches_pos (texts.drop vs.length).length bs hbs hlen
  cases hwu : backend "warm-up" with
  | err => rw [warmupOk, hwu] at hwarm; cases hwarm
  | ok r =>
    simp only [processInBatches, hload, hE, Bool.false_eq_true, if_false, hwu]
    rw [batchLoop_ok backend saveOk bs hsave _ 0 _ vs tmp0 _ hok hnb.1 hnb.2]
    simp only [finishRun, if_neg hnb0, if_true, finalizeStep]
    simp

/-- Failing run of `process_in_batches` for an ollama provider: resuming from a
checkpoint that loads as `(vs, w)`, if the first `j` batches embed successfully
(all saves succeeding) and batch `j` contains a text whose embed call fails or
whose response lacks the `embedding` field, the run returns `False`, exactly
batches `0..j` are attempted, and the persisted checkpoint afterwards holds
the prefix through batch `j - 1` (the starting file when `j = 0`). -/
theorem processInBatches_err (backend : String → EmbedResult) (saveOk : Nat → Bool)
    (bs : Nat) (texts : List String) (tmp0 final0 : Option NpyFile)
    (vs : List Vec) (w : Bool) (j : Nat)
    (hload : loadTmp tmp0 = (vs, w))
    (hbs : 1 ≤ bs) (hsave : ∀ i, saveOk i = true)
    (hwarm : warmupOk backend = true)
    (hok : ∀ t ∈ (texts.drop vs.length).take (j * bs), textOk backend t = true)
    (hbad : ∃ t ∈ ((texts.drop vs.length).drop (j * bs)).take bs,
        textOk backend t = false)
    (hj : j * bs < (texts.drop vs.length).length) :
    processInBatches (ModelType.ollama backend) saveOk bs texts ⟨tmp0, final0⟩ =
      (false,
       ⟨if j = 0 then tmp0
          else some (NpyFile.valid
            (vs ++ ((texts.drop vs.length).take (j * bs)).map (embedOf backend))),
        final0⟩,
       (if w then [Event.corruptWarning] else []) ++
         Event.warmup ::
           (chunkList bs (j + 1) (texts.drop vs.length)).map Event.embedCall) := by
  have hlen : 0 < (texts.drop vs.length).length := by omega
  have hne : texts.drop vs.length ≠ [] := List.ne_nil_of_length_pos hlen
  have hE : (texts.drop vs.length).isEmpty = false := by
    simpa [List.isEmpty_iff] using hne
  have hnb := numBatches_spec (texts.drop vs.length).length bs hbs
  cases hwu : backend "warm-up" with
  | err => rw [warmupOk, hwu] at hwarm; cases hwarm
  | ok r =>
    simp only [processInBatches, hload, hE, Bool.false_eq_true, if_false, hwu]
    rw [batchLoop_err backend saveOk bs hsave j _ 0 _ vs tmp0 _ hok hbad hnb.1 hj]
    simp only [finishRun]
    by_cases h0 : j = 0 <;> simp [h0]

/-! ### Claim theorems -/

/-- C1: every invocation of the entry point `main` raises the forced test
exception before any configuration is read, any text is embedded, or any
artifact is written (the result is the bare error, carrying no coordinator
output), and the `__main__` guard captures output, attempts the clipboard
copy, and re-raises the same exception — the shipped program never performs
the embedding pipeline. -/
theorem main_always_raises (force : Bool) (saveOk : Nat → Bool) (bs : Nat)
    (texts : List String) (providers : List Provider) :
    main force saveOk bs texts providers = Except.error forcedTestError ∧
    topLevelGuard force saveOk bs texts providers
      = (Except.error forcedTestError, true) :=
  ⟨rfl, rfl⟩

/-- C6: finalize is idempotent: when the final artifact already exists and the
partial file is already gone (the crash-after-finalize-before-exit case, with
no work remaining), running finalization again reports success and leaves the
existing final artifact untouched. -/
theorem finalize_idempotent (texts : List String) (a : NpyFile) :
    finalizeStep texts ⟨none, some a⟩ = (true, ⟨none, some a⟩) := rfl

/-- C10: skip-on-exists: when the provider's final artifact exists and the
force flag is not set, the coordinator skips the provider entirely — no model
load, no warm-up, no embed call (the event log is empty) and the file state is
untouched. -/
theorem skip_on_exists (mt : ModelType) (saveOk : Nat → Bool) (bs : Nat)
    (texts : List String) (tmp0 : Option NpyFile) (a : NpyFile) :
    coordinatorStep false mt saveOk bs texts ⟨tmp0, some a⟩
      = (none, ⟨tmp0, some a⟩, []) := rfl

/-- C4 counterexample: with a failing `np.save`, the append that follows a
successful embed call leaves the persisted checkpoint unchanged (here: still
absent) while the in-memory prefix grows — the persisted partial state is not
extended by the batch's vectors, and the failure is tolerated silently. -/
theorem append_not_durable_cex :
    checkpointAppend false [] [[1]] none = ([[1]], none) ∧
    (checkpointAppend false [] [[1]] none).2 ≠ some (NpyFile.valid [[1]]) := by
  decide

/-- C4 (amended): the checkpoint append extends the in-memory prefix by
exactly the batch's vectors, in order; when the save succeeds the persisted
partial state becomes exactly that extended prefix, but a failure to persist
is tolerated with only a warning — the persisted state is left unchanged while
the in-memory prefix keeps growing, so durability before the append returns
does not hold. -/
theorem checkpoint_append_amended (so : Bool) (mem bv : List Vec)
    (tmp : Option NpyFile) :
    checkpointAppend so mem bv tmp
      = (mem ++ bv, if so then some (NpyFile.valid (mem ++ bv)) else tmp) := rfl

/-- C2 counterexample: for the empty corpus with no pre-existing partial or
final state, the run succeeds and makes no backend call, but no zero-length
final artifact appears on disk — the final slot stays `none`. -/
theorem empty_corpus_cex :
    processInBatches (ModelType.ollama fun _ => EmbedResult.err) (fun _ => true) 32 []
        ⟨none, none⟩ = (true, ⟨none, none⟩, []) ∧
    (processInBatches (ModelType.ollama fun _ => EmbedResult.err) (fun _ => true) 32 []
        ⟨none, none⟩).2.1.final = none := by
  decide

/-- C2 (amended): for an empty corpus with no pre-existing partial or final
state, the batch runner succeeds without requiring prior partial state and
without any backend call, but writes no final artifact: the
`FileNotFoundError` handler takes the explicit empty-corpus branch and returns
success without creating a file. -/
theorem empty_corpus_amended (mt : ModelType) (saveOk : Nat → Bool) (bs : Nat) :
    processInBatches mt saveOk bs [] ⟨none, none⟩ = (true, ⟨none, none⟩, []) := rfl

/-- C3: batch atomicity: for every corpus, batch size, and starting checkpoint
of length `k` (saves succeeding, warm-up returning), if the embed call for
batch `j` fails while batches `0..j-1` succeed, the runner stops immediately —
the attempted batches are exactly `0..j`, the run reports failure, and the
persisted checkpoint afterwards holds exactly `k` plus the texts covered by
the completed batches before `j`: never more, never less. -/
theorem batch_atomicity (backend : String → EmbedResult) (saveOk : Nat → Bool)
    (bs : Nat) (texts : List String) (vs : List Vec) (final0 : Option NpyFile)
    (j : Nat)
    (hbs : 1 ≤ bs) (hsave : ∀ i, saveOk i = true)
    (hwarm : warmupOk backend = true)
    (hok : ∀ t ∈ (texts.drop vs.length).take (j * bs), textOk backend t = true)
    (hbad : ∃ t ∈ ((texts.drop vs.length).drop (j * bs)).take bs,
        textOk backend t = false)
    (hj : j * bs < (texts.drop vs.length).length) :
    processInBatches (ModelType.ollama backend) saveOk bs texts
        ⟨some (NpyFile.valid vs), final0⟩ =
      (false,
       ⟨some (NpyFile.valid
          (vs ++ ((texts.drop vs.length).take (j * bs)).map (embedOf backend))),
        final0⟩,
       Event.warmup ::
         (chunkList bs (j + 1) (texts.drop vs.length)).map Event.embedCall) ∧
    (vs ++ ((texts.drop vs.length).take (j * bs)).map (embedOf backend)).length
      = vs.length + j * bs := by
  constructor
  · have h := processInBatches_err backend saveOk bs texts (some (NpyFile.valid vs))
      final0 vs false j rfl hbs hsave hwarm hok hbad hj
    rw [h]
    by_cases h0 : j = 0
    · subst h0; simp
    · simp [h0]
  · rw [List.length_append, List.length_map, List.length_take]
    omega

/-- C3 witness: corpus `["a", "b"]`, batch size 1, empty starting checkpoint;
the backend embeds "a" and fails on "b" (batch `j = 1`). -/
theorem batch_atomicity_witness :
    processInBatches (ModelType.ollama sampleBackend) (fun _ => true) 1 ["a", "b"]
        ⟨some (NpyFile.valid []), none⟩ =
      (false,
       ⟨some (NpyFile.valid
          (([] : List Vec) ++
            ((["a", "b"].drop ([] : List Vec).length).take (1 * 1)).map
              (embedOf sampleBackend))),
        none⟩,
       Event.warmup ::
         (chunkList 1 (1 + 1) (["a", "b"].drop ([] : List Vec).length)).map
           Event.embedCall) ∧
    (([] : List Vec) ++
        ((["a", "b"].drop ([] : List Vec).length).take (1 * 1)).map
          (embedOf sampleBackend)).length
      = ([] : List Vec).length + 1 * 1 :=
  batch_atomicity sampleBackend (fun _ => true) 1 ["a", "b"] [] none 1
    (by decide) (fun _ => rfl) (by decide) (by decide) (by decide) (by decide)

/-- C5: resume scenario: corpus of 4 texts, batch size 2, pre-existing partial
checkpoint holding the vectors for texts 0 and 1; the run issues exactly one
embed batch call, covering texts 2 and 3, and produces a 4-element final
artifact whose entries at indices 0 and 1 are the pre-existing values
unchanged and whose entry at every index `i` is the embedding of text `i`. -/
theorem resume_scenario (backend : String → EmbedResult) (saveOk : Nat → Bool)
    (t0 t1 t2 t3 : String) (v0 v1 : Vec)
    (hsave : ∀ i, saveOk i = true) (hwarm : warmupOk backend = true)
    (h2 : textOk backend t2 = true) (h3 : textOk backend t3 = true)
    (hv0 : v0 = embedOf backend t0) (hv1 : v1 = embedOf backend t1) :
    processInBatches (ModelType.ollama backend) saveOk 2 [t0, t1, t2, t3]
        ⟨some (NpyFile.valid [v0, v1]), none⟩ =
      (true,
       ⟨none, some (NpyFile.valid
          [v0, v1, embedOf backend t2, embedOf backend t3])⟩,
       [Event.warmup, Event.embedCall [t2, t3]]) ∧
    [v0, v1, embedOf backend t2, embedOf backend t3]
      = [t0, t1, t2, t3].map (embedOf backend) := by
  constructor
  · have h := processInBatches_ok backend saveOk 2 [t0, t1, t2, t3]
        (some (NpyFile.valid [v0, v1])) none [v0, v1] false rfl (by omega) hsave hwarm
        (by intro t ht
            have : t = t2 ∨ t = t3 := by simpa using ht
            rcases this with rfl | rfl
            · exact h2
            · exact h3)
        (by simp)
    rw [h]
    simp [numBatches, chunkList]
  · rw [hv0, hv1]
    rfl

/-- C5 witness: concrete four-text corpus with a backend embedding each text
as its length; the pre-existing partial values are the embeddings of texts 0
and 1. -/
theorem resume_scenario_witness :
    processInBatches (ModelType.ollama sampleEmbed) (fun _ => true) 2
        ["a", "bb", "ccc", "dddd"] ⟨some (NpyFile.valid [[1], [2]]), none⟩ =
      (true,
       ⟨none, some (NpyFile.valid
          [[1], [2], embedOf sampleEmbed "ccc", embedOf sampleEmbed "dddd"])⟩,
       [Event.warmup, Event.embedCall ["ccc", "dddd"]]) ∧
    [[1], [2], embedOf sampleEmbed "ccc", embedOf sampleEmbed "dddd"]
      = ["a", "bb", "ccc", "dddd"].map (embedOf sampleEmbed) :=
  resume_scenario sampleEmbed (fun _ => true) "a" "bb" "ccc" "dddd" [1] [2]
    (fun _ => rfl) (by decide) (by decide) (by decide) (by decide) (by decide)

/-- C7: a corrupt partial checkpoint is recovered locally: the run restarts
embedding from index 0 (all texts are re-embedded), the anomaly is logged
(the warning event is first), and the corruption is not propagated as a fatal
error — with a working backend the run completes successfully. -/
theorem corrupt_checkpoint_recovery (backend : String → EmbedResult)
    (saveOk : Nat → Bool) (bs : Nat) (texts : List String) (final0 : Option NpyFile)
    (hbs : 1 ≤ bs) (hsave : ∀ i, saveOk i = true)
    (hwarm : warmupOk backend = true)
    (hok : ∀ t ∈ texts, textOk backend t = true) (hne : texts ≠ []) :
    processInBatches (ModelType.ollama backend) saveOk bs texts
        ⟨some NpyFile.corrupt, final0⟩ =
      (true, ⟨none, some (NpyFile.valid (texts.map (embedOf backend)))⟩,
       Event.corruptWarning :: Event.warmup ::
         (chunkList bs (numBatches texts.length bs) texts).map Event.embedCall) := by
  have h := processInBatches_ok backend saveOk bs texts (some NpyFile.corrupt) final0
      [] true rfl hbs hsave hwarm (by simpa using hok) (by simpa using hne)
  simpa using h

/-- C7 witness: a one-text corpus behind a corrupt checkpoint, with a backend
embedding each text as its length. -/
theorem corrupt_checkpoint_recovery_witness :
    processInBatches (ModelType.ollama sampleEmbed) (fun _ => true) 1 ["a"]
        ⟨some NpyFile.corrupt, none⟩ =
      (true, ⟨none, some (NpyFile.valid (["a"].map (embedOf sampleEmbed)))⟩,
       Event.corruptWarning :: Event.warmup ::
         (chunkList 1 (numBatches (List.length ["a"]) 1) ["a"]).map
           Event.embedCall) :=
  corrupt_checkpoint_recovery sampleEmbed (fun _ => true) 1 ["a"] none (by decide)
    (fun _ => rfl) (by decide) (by decide) (by decide)

/-- C8 counterexample: a backend whose response carries an empty vector in the
`embedding` field is not surfaced as an embed error: the empty vector is
silently appended to the checkpoint and the run reports success. -/
theorem embed_error_cex :
    processInBatches (ModelType.ollama fun _ => EmbedResult.ok ⟨some []⟩)
        (fun _ => true) 1 ["a"] ⟨none, none⟩ =
      (true, ⟨none, some (NpyFile.valid [[]])⟩,
       [Event.warmup, Event.embedCall ["a"]]) := by
  decide

/-- C8 (amended): if the embed call for a text raises or its response lacks
the `embedding` field, the runner surfaces this as an embed error that aborts
the provider's embedding phase — here shown with the failure in the first
batch: the run fails, no entry is appended to the (absent) checkpoint, and no
further batch is attempted.  (A present-but-empty vector, by contrast, is
appended without error.) -/
theorem embed_error_amended (backend : String → EmbedResult) (saveOk : Nat → Bool)
    (bs : Nat) (texts : List String) (final0 : Option NpyFile)
    (hbs : 1 ≤ bs) (hsave : ∀ i, saveOk i = true)
    (hwarm : warmupOk backend = true)
    (hbad : ∃ t ∈ texts.take bs, textOk backend t = false)
    (hlen : 0 < texts.length) :
    processInBatches (ModelType.ollama backend) saveOk bs texts ⟨none, final0⟩
      = (false, ⟨none, final0⟩,
         [Event.warmup, Event.embedCall (texts.take bs)]) := by
  have h := processInBatches_err backend saveOk bs texts none final0 [] false 0 rfl
      hbs hsave hwarm (by simp) (by simpa using hbad) (by simpa using hlen)
  simpa [chunkList] using h

/-- C8 witness: a backend whose non-warm-up responses lack the `embedding`
field, on a one-text corpus. -/
theorem embed_error_amended_witness :
    processInBatches (ModelType.ollama sampleNoField) (fun _ => true) 1 ["x"]
        ⟨none, none⟩
      = (false, ⟨none, none⟩,
         [Event.warmup, Event.embedCall (["x"].take 1)]) :=
  embed_error_amended sampleNoField (fun _ => true) 1 ["x"] none (by decide)
    (fun _ => rfl) (by decide) (by decide) (by decide)

/-- C9 counterexample: forced re-run on an empty corpus: the provider's final
artifact is discarded and the run succeeds, but no new final artifact of
length `N = 0` is produced — the final slot is `none` afterwards. -/
theorem forced_rerun_cex :
    coordinatorStep true (ModelType.ollama fun _ => EmbedResult.ok ⟨some [0]⟩)
        (fun _ => true) 2 [] ⟨none, some (NpyFile.valid [[1]])⟩
      = (some true, ⟨none, none⟩, []) ∧
    (coordinatorStep true (ModelType.ollama fun _ => EmbedResult.ok ⟨some [0]⟩)
        (fun _ => true) 2 [] ⟨none, some (NpyFile.valid [[1]])⟩).2.1.final
      = none := by
  decide

/-- C9 (amended): forced re-run on a nonempty corpus: both the final artifact
and the partial checkpoint are deleted before embedding starts, the run then
re-embeds all `N` texts from index 0 (the result does not depend on the prior
file state), and produces a new final artifact of length `N`. -/
theorem forced_rerun_amended (backend : String → EmbedResult) (saveOk : Nat → Bool)
    (bs : Nat) (texts : List String) (fs : FS)
    (hbs : 1 ≤ bs) (hsave : ∀ i, saveOk i = true)
    (hwarm : warmupOk backend = true)
    (hok : ∀ t ∈ texts, textOk backend t = true) (hne : texts ≠ []) :
    coordinatorStep true (ModelType.ollama backend) saveOk bs texts fs
      = (some true, ⟨none, some (NpyFile.valid (texts.map (embedOf backend)))⟩,
         Event.warmup ::
           (chunkList bs (numBatches texts.length bs) texts).map Event.embedCall) ∧
    (texts.map (embedOf backend)).length = texts.length := by
  constructor
  · have h := processInBatches_ok backend saveOk bs texts none none [] false rfl
        hbs hsave hwarm (by simpa using hok) (by simpa using hne)
    simp [coordinatorStep, h]
  · simp

/-- C9 witness: a one-text corpus with an existing final artifact; the forced
re-run replaces it with the fresh embedding. -/
theorem forced_rerun_amended_witness :
    coordinatorStep true (ModelType.ollama sampleEmbed) (fun _ => true) 1 ["a"]
        ⟨none, some (NpyFile.valid [[9]])⟩
      = (some true, ⟨none, some (NpyFile.valid (["a"].map (embedOf sampleEmbed)))⟩,
         Event.warmup ::
           (chunkList 1 (numBatches (List.length ["a"]) 1) ["a"]).map
             Event.embedCall) ∧
    (["a"].map (embedOf sampleEmbed)).length = List.length ["a"] :=
  forced_rerun_amended sampleEmbed (fun _ => true) 1 ["a"]
    ⟨none, some (NpyFile.valid [[9]])⟩
    (by decide) (fun _ => rfl) (by decide) (by decide) (by decide)

end Vectorize
